import Mathlib

/-!
# Verification of the irrigator control engine against its specification

Shallow embedding of the parts of `icomputer` (timers, state-override
commands, faucets, relay actuation, flow counters, leak detection) that the
frozen claims are about, together with theorems settling each claim.

Conventions of the embedding:
* Wall-clock time for the timer layer is measured in whole **minutes** since
  an epoch that falls on a Sunday at 00:00 (so day index `t / 1440` is 0 for
  the epoch Sunday, 1 for Monday, ... 6 for Saturday).
* Wall-clock time for the counter/faucet layer is measured in **seconds**
  (as a natural number for the Arduino counter, as a rational for faucet
  open/close bookkeeping, mirroring `total_seconds()`).
* Python floats are modelled as rationals; serial reads and relay writes are
  modelled by explicit parameters giving the outcome of the I/O.
* Log lines and notification e-mails are modelled as structured values
  returned by the operations instead of file/SMTP side effects.
-/

namespace Irrigator

/-! ## Clock and calendar utilities (`icomputer/timers.py`) -/

/-- Embeds `sane_day_from_isoweekday`: convert ISO day (1=Monday..7=Sunday)
to "sane" day (1=Sunday..7=Saturday) by adding 1 and wrapping 8 to 1. -/
def sane_day_from_isoweekday (day : Nat) : Nat :=
  let day := day + 1
  if day = 8 then 1 else day

/-- `datetime.isoweekday()` for a time given in minutes since the epoch
Sunday: Monday..Saturday are 1..6 and Sunday is 7. -/
def isoweekday (t : Nat) : Nat :=
  let d := (t / 1440) % 7
  if d = 0 then 7 else d

/-- Embeds `sane_day`: the sane day-of-week of a time in minutes. -/
def sane_day (t : Nat) : Nat :=
  sane_day_from_isoweekday (isoweekday t)

/-- Midnight of the calendar day containing `t` (the `date()` of a
datetime, as minutes). -/
def dateStart (t : Nat) : Nat :=
  (t / 1440) * 1440

/-- Embeds `next_weekday(d, weekday)`: the closest occurrence of `weekday`
at or after `d` (returns `d` itself when the day matches). -/
def next_weekday (t : Nat) (weekday : Nat) : Nat :=
  let days_ahead : Int := (weekday : Int) - (sane_day t : Int)
  let days_ahead : Int := if days_ahead < 0 then days_ahead + 7 else days_ahead
  t + 1440 * days_ahead.toNat

/-- Embeds `time_in_range(start_hour, start_minute, duration, test_time)`:
build `start_time` from `test_time`'s date at `(start_hour, start_minute)`
and compare, exactly as the source does (note both comparisons are strict,
making the window closed at both ends). -/
def time_in_range (start_hour start_minute duration t : Nat) : Bool :=
  let start_time := dateStart t + start_hour * 60 + start_minute
  if start_time > t then false
  else if start_time + duration < t then false
  else true

/-! ## Weekly timers (`icomputer/timers.py`) -/

/-- The fields of `WeeklyTimer` relevant to the claims.  `start_time` is
split into hour and minute; the associated faucet is kept by name. -/
structure WeeklyTimer where
  duration : Nat
  faucet : String
  start_day : Nat
  startHour : Nat
  startMin : Nat
  overnight : Bool
deriving DecidableEq

/-- Embeds `WeeklyTimer.__init__`: the `overnight` flag is set when
`start_time + duration` lands on a different calendar day than
`start_time` (i.e. crosses midnight). -/
def mkWeeklyTimer (duration : Nat) (faucet : String) (start_day startHour startMin : Nat) :
    WeeklyTimer :=
  { duration := duration, faucet := faucet, start_day := start_day,
    startHour := startHour, startMin := startMin,
    overnight := decide (1440 ≤ startHour * 60 + startMin + duration) }

/-- Embeds `WeeklyTimer.should_be_open`.  NOTE: in the source the method
signature is `should_be_open(self)` — it accepts **no**
`duration_correction` argument even though `IComputer.main_loop` calls it
as `ctimer.should_be_open(self.duration_correction)`; the embedding follows
the method as defined. -/
def WeeklyTimer.should_be_open (tm : WeeklyTimer) (now : Nat) : Bool :=
  if !tm.overnight then
    if sane_day now ≠ tm.start_day then false
    else if !(time_in_range tm.startHour tm.startMin tm.duration now) then false
    else true
  else
    let next_start := dateStart (next_weekday now tm.start_day) + tm.startHour * 60 + tm.startMin
    if now < next_start then false
    else
      let next_end := next_start + tm.duration
      if now > next_end then false
      else true

/-- Embeds `WeeklyTimer.time_to_close` (seconds left until `test_end`,
which is built from *today's* date).  Like `should_be_open` it accepts no
`duration_correction` argument in the source. -/
def WeeklyTimer.time_to_close (tm : WeeklyTimer) (now : Nat) : Int :=
  let test_start := dateStart now + tm.startHour * 60 + tm.startMin
  let test_end := test_start + tm.duration
  ((test_end : Int) - (now : Int)) * 60

/-! ## Persistent state-override commands (`IComputer.read_state_commands`)

Strings are processed as `List Char`.  `pyStrip`, `splitOnChar` and
`pyLower` embed Python's `str.strip()`, `str.split` and `str.lower()` for
the ASCII inputs the command files hold. -/

/-- `str.lower()` on an ASCII character. -/
def pyLowerChar (c : Char) : Char :=
  if 'A' ≤ c ∧ c ≤ 'Z' then Char.ofNat (c.toNat + 32) else c

/-- `str.lower()` on an ASCII string. -/
def pyLower (cs : List Char) : List Char :=
  cs.map pyLowerChar

/-- `str.strip()`: drop leading and trailing whitespace. -/
def pyStrip (cs : List Char) : List Char :=
  ((cs.dropWhile Char.isWhitespace).reverse.dropWhile Char.isWhitespace).reverse

/-- Helper for `splitOnChar`: accumulate the current field (reversed). -/
def splitOnCharAux (sep : Char) : List Char → List Char → List (List Char)
  | [], acc => [acc.reverse]
  | c :: rest, acc =>
    if c = sep then acc.reverse :: splitOnCharAux sep rest []
    else splitOnCharAux sep rest (c :: acc)

/-- `str.split(sep)` for a one-character separator. -/
def splitOnChar (sep : Char) (cs : List Char) : List (List Char) :=
  splitOnCharAux sep cs []

/-- Is every character an ASCII digit? -/
def allDigits (cs : List Char) : Bool :=
  cs.all Char.isDigit

/-- Numeric value of a list of ASCII digits. -/
def natOfDigits (cs : List Char) : Nat :=
  cs.foldl (fun n c => n * 10 + (c.toNat - 48)) 0

/-- Embeds Python `float()` restricted to plain decimal literals
(optional sign, digits, optional fractional part) — the only forms the
`set_percent` command carries.  Exponent/`inf`/`nan` syntax is not used by
the config files and is not modelled. -/
def pyFloat (cs : List Char) : Option ℚ :=
  let signAndRest : Bool × List Char :=
    match cs with
    | '-' :: t => (true, t)
    | '+' :: t => (false, t)
    | _ => (false, cs)
  let neg := signAndRest.1
  let body := signAndRest.2
  let value? : Option ℚ :=
    match splitOnChar '.' body with
    | [i] => if i ≠ [] ∧ allDigits i then some ((natOfDigits i : ℚ)) else none
    | [i, fr] =>
      if (i ≠ [] ∨ fr ≠ []) ∧ allDigits i ∧ allDigits fr then
        some ((natOfDigits i : ℚ) + (natOfDigits fr : ℚ) / ((10 : ℚ) ^ fr.length))
      else none
    | _ => none
  match value? with
  | none => none
  | some v => some (if neg then -v else v)

/-- The state-override fields of `IComputer` that `init_state_params` and
`read_state_commands` manipulate (plus `monitor_leaks` and `mode`, which
live on the computer object itself). -/
structure IState where
  computer_name : List Char
  disabled : Bool
  monitor_leaks : Bool
  disabled_faucets : List (List Char)
  disable_fertilization : List (List Char)
  duration_correction : ℚ
  mode : List Char
deriving DecidableEq

/-- The state right after `init_state_params` on a computer named
`local` with default `monitor_leaks = False` and `mode = auto`. -/
def initIState : IState :=
  { computer_name := "local".toList
    disabled := false
    monitor_leaks := false
    disabled_faucets := []
    disable_fertilization := []
    duration_correction := 1
    mode := "auto".toList }

/-- Embeds the per-line dispatch of `IComputer.read_state_commands`: strip
the line, split on tabs, lowercase the verb and the parameter, then apply
the command.  Side effects other than state-field updates (closing faucets
and deleting manual timers on `disable_computer`) are not modelled here.
When a line has no second column the source would reuse the `param`
binding of the previous line (a `NameError` on the first such line, caught
by the surrounding `try`); the claims only exercise two-column lines, for
which the embedding is exact. -/
def applyStateLine (st : IState) (line : List Char) : IState :=
  let cline := pyStrip line
  if cline.length = 0 then st
  else
    match splitOnChar '\t' cline with
    | [] => st
    | cmd :: rest =>
      let ccommand := pyLower cmd
      let param : List Char :=
        match rest with
        | p :: _ => pyLower p
        | [] => []
      match ccommand.head? with
      | none => st
      | some h0 =>
        if h0 = '#' then st
        else if ccommand = "disable_computer".toList then
          if param = st.computer_name then { st with disabled := true } else st
        else if ccommand = "monitor_leaks".toList then
          if param = "True".toList then { st with monitor_leaks := true }
          else { st with monitor_leaks := false }
        else if ccommand = "disable_line".toList then
          { st with disabled_faucets := param :: st.disabled_faucets }
        else if ccommand = "disable_fertilization".toList then
          { st with disable_fertilization := param :: st.disable_fertilization }
        else if ccommand = "set_percent".toList then
          if param.getLast? ≠ some '%' then st
          else
            match pyFloat param.dropLast with
            | none => st
            | some percent =>
              if percent < 0 ∨ percent > 1000 then st
              else { st with duration_correction := percent / 100 }
        else if ccommand = "mode".toList then
          { st with mode := param }
        else st


/-! ## Faucets and relay actuation (`icomputer/faucet.py`, `icomputer/numatofaucet.py`)

`Computer` carries the context a faucet consults through
`self.local_computer`: the node name, the `monitor_leaks` flag and the
counter inventory (each counter recorded with its current `get_count()`
reading).  Relay writes are modelled by a `writeOk` parameter giving the
result of `write_relay`; log lines and e-mails are returned as values. -/

/-- The view of a water counter that `Faucet` uses: identity plus the
value `get_count()` currently returns. -/
structure CounterView where
  name : String
  computer_name : String
  count : ℚ
deriving DecidableEq

/-- The `IComputer` context consulted by faucet methods. -/
structure Computer where
  computer_name : String
  monitor_leaks : Bool
  counters : List CounterView
deriving DecidableEq

/-- The `Faucet` state fields the claims are about. -/
structure Faucet where
  name : String
  computer_name : String
  read_only : Bool
  counter : String
  normal_flow : ℚ
  isopen : Bool
  open_time : ℚ
  start_water : ℚ
  flow_counts : List ℚ
  all_alone : Bool
  all_alone_all_time : Bool
deriving DecidableEq

/-- A structured action-log line: `opened faucet X` /
`closed faucet X water W median flow F`, with the `remotely` prefix
recorded as a flag. -/
inductive ActionLog where
  | opened (remote : Bool) (faucet : String)
  | closed (remote : Bool) (faucet : String) (water : ℚ) (medianFlow : ℚ)
deriving DecidableEq

/-- A notification sent by `send_email` during `Faucet.close`. -/
inductive Email where
  | zeroWater (faucet : String)
  | highFlow (faucet : String)
  | lowFlow (faucet : String)
deriving DecidableEq

/-- Embeds `Faucet.is_local`. -/
def Faucet.is_local (f : Faucet) (comp : Computer) : Bool :=
  f.computer_name = comp.computer_name

/-- Embeds `Faucet.get_faucet_counter`: `None` when the faucet has no
counter name or the name is not in the computer's counter dict. -/
def Faucet.get_faucet_counter (f : Faucet) (comp : Computer) : Option CounterView :=
  if f.counter = "none" then none
  else comp.counters.find? fun c => c.name = f.counter

/-- Embeds `Faucet.get_current_water`: the counter's current count, `-1`
when there is no counter. -/
def Faucet.get_current_water (f : Faucet) (comp : Computer) : ℚ :=
  match f.get_faucet_counter comp with
  | none => -1
  | some c => c.count

/-- Insert into a sorted list (ascending). -/
def insertSorted (x : ℚ) : List ℚ → List ℚ
  | [] => [x]
  | y :: ys => if x ≤ y then x :: y :: ys else y :: insertSorted x ys

/-- Sort a list of rationals ascending (insertion sort; extensionally the
sort `numpy` performs). -/
def sortRat (xs : List ℚ) : List ℚ :=
  xs.foldr insertSorted []

/-- `numpy.median`: middle element of the sorted list, or the mean of the
two middle elements for even length. -/
def npMedian (xs : List ℚ) : ℚ :=
  let sorted := sortRat xs
  let n := sorted.length
  if n % 2 = 1 then sorted.getD (n / 2) 0
  else (sorted.getD (n / 2 - 1) 0 + sorted.getD (n / 2) 0) / 2

/-- Embeds `Faucet.get_median_flow`: `-1` without a counter or without
flow reads, otherwise the median of `flow_counts`. -/
def Faucet.get_median_flow (f : Faucet) : ℚ :=
  if f.counter = "none" then -1
  else if f.flow_counts.length < 1 then -1
  else npMedian f.flow_counts

/-- Embeds `Faucet.get_total_water` at wall-clock time `now` (seconds):
measured water when the faucet was alone the whole time, otherwise the
floor-division estimate `median_flow * seconds_open // 60`, and `-1` when
no estimate is possible. -/
def Faucet.get_total_water (f : Faucet) (comp : Computer) (now : ℚ) : ℚ :=
  if f.counter = "none" then -1
  else if f.all_alone_all_time then f.get_current_water comp - f.start_water
  else
    let cflow := f.get_median_flow
    if cflow = -1 then -1
    else (((cflow * (now - f.open_time)) / 60).floor : ℚ)

/-- Result of `Faucet.open`: the updated faucet, the action-log lines
written, and the returned boolean. -/
structure OpenResult where
  faucet : Faucet
  logs : List ActionLog
  ret : Bool
deriving DecidableEq

/-- Result of `Faucet.close`: the updated faucet, the action-log lines,
the notifications sent, whether a water-summary line was written, and the
returned boolean. -/
structure CloseResult where
  faucet : Faucet
  logs : List ActionLog
  emails : List Email
  wroteSummary : Bool
  ret : Bool
deriving DecidableEq

/-- Embeds `Faucet.open` (named `openAct` because `open` is reserved in
Lean): a non-forced call on an open faucet is a no-op returning `False`;
otherwise reset the bookkeeping fields, log `opened faucet X` (remotely
variant when not local) and return `False`. -/
def Faucet.openAct (f : Faucet) (force : Bool) (comp : Computer) (now : ℚ) : OpenResult :=
  if !force && f.isopen then ⟨f, [], false⟩
  else
    let f1 : Faucet :=
      { f with isopen := true, all_alone := true, all_alone_all_time := true,
               flow_counts := [], open_time := now,
               start_water := f.get_current_water comp }
    let remote := !(f.is_local comp)
    ⟨f1, [ActionLog.opened remote f.name], false⟩

/-- The notifications `Faucet.close` sends (zero-water, high-flow,
low-flow), factored out of `closeAct`.  The source computes these after
setting `self.isopen = False`, but none of the fields consulted
(`counter`, `open_time`, `normal_flow`, `flow_counts`, `start_water`,
`all_alone_all_time`, `name`) is `isopen`, so the computation is stated on
the pre-close state: a counter on this node, not in `monitor_leaks` mode,
open for more than 120 s; zero-water when a measured total is at most
10 L; the two flow checks additionally need `normal_flow > 0` and a
median flow reading. -/
def closeEmails (f : Faucet) (comp : Computer) (now : ℚ) : List Email :=
  match f.get_faucet_counter comp with
  | none => []
  | some c =>
    if c.computer_name = comp.computer_name then
      if !comp.monitor_leaks then
        if 120 < now - f.open_time then
          (if f.get_total_water comp now > -1 ∧ f.get_total_water comp now ≤ 10
           then [Email.zeroWater f.name] else [])
          ++ (if f.normal_flow > 0 ∧ f.get_median_flow > -1 then
                (if f.get_median_flow > f.normal_flow * (23 / 20) ∨
                    f.get_median_flow > f.normal_flow + 4
                 then [Email.highFlow f.name] else [])
                ++ (if f.get_median_flow < f.normal_flow * (4 / 5) ∨
                      f.get_median_flow < f.normal_flow - 4
                    then [Email.lowFlow f.name] else [])
              else [])
        else []
      else []
    else []

/-- Embeds `Faucet.close` (named `closeAct` for symmetry with `openAct`):
a non-forced call on a closed faucet is a no-op returning `False`;
otherwise clear `isopen`, optionally write the water summary (when the
faucet has a counter), log the close line with total water and median
flow, send the anomaly notifications (`closeEmails`), and clear
`flow_counts`. -/
def Faucet.closeAct (f : Faucet) (write_summary force : Bool) (comp : Computer) (now : ℚ) :
    CloseResult :=
  if !force && !f.isopen then ⟨f, [], [], false, false⟩
  else
    ⟨{ f with isopen := false, flow_counts := [] },
     [ActionLog.closed (!(f.is_local comp)) f.name (f.get_total_water comp now)
        f.get_median_flow],
     closeEmails f comp now,
     write_summary && (f.get_faucet_counter comp).isSome,
     false⟩

/-- Embeds `NumatoFaucet.open`: skip in read-only mode, no-op when
already open and not forced, then call the **base** `open` with its
default `force=False` (the source writes `super().open()`), actuate the
relay when local (`writeOk` is the outcome of `write_relay`), and on a
failed write set `isopen` back to `False`.  Returns the write result
(`True` for non-local faucets). -/
def NumatoFaucet.openAct (f : Faucet) (force : Bool) (comp : Computer) (now : ℚ)
    (writeOk : Bool) : OpenResult :=
  if f.read_only then ⟨f, [], false⟩
  else if !force && f.isopen then ⟨f, [], false⟩
  else
    let r := Faucet.openAct f false comp now
    if r.faucet.is_local comp then
      let f2 := if !writeOk then { r.faucet with isopen := false } else r.faucet
      ⟨f2, r.logs, writeOk⟩
    else ⟨r.faucet, r.logs, true⟩

/-- Embeds `NumatoFaucet.close`: skip in read-only mode, no-op when
already closed and not forced, then call the **base** `close` with its
defaults (`write_summary=True, force=False` — the source writes
`super().close()`, so the `force` flag is *not* forwarded), actuate the
relay when local, and on a failed write set `isopen` back to `True`. -/
def NumatoFaucet.closeAct (f : Faucet) (force : Bool) (comp : Computer) (now : ℚ)
    (writeOk : Bool) : CloseResult :=
  if f.read_only then ⟨f, [], [], false, false⟩
  else if !force && !f.isopen then ⟨f, [], [], false, false⟩
  else
    let r := Faucet.closeAct f true false comp now
    if r.faucet.is_local comp then
      let f2 := if !writeOk then { r.faucet with isopen := true } else r.faucet
      ⟨f2, r.logs, r.emails, r.wroteSummary, writeOk⟩
    else ⟨r.faucet, r.logs, r.emails, r.wroteSummary, true⟩

/-- The action-log lines produced by `IComputer.close_all` (which calls
`close(force=True)` on every faucet; relay writes assumed to succeed). -/
def closeAllLogs (fs : List Faucet) (comp : Computer) (now : ℚ) : List ActionLog :=
  (fs.map fun f => (NumatoFaucet.closeAct f true comp now true).logs).flatten

/-- Names carried by the `closed` lines of a log, in order. -/
def closedNames (logs : List ActionLog) : List String :=
  logs.filterMap fun e =>
    match e with
    | ActionLog.closed _ n _ _ => some n
    | _ => none

/-- How many `opened` lines for faucet `name` a log holds. -/
def openedCount (logs : List ActionLog) (name : String) : Nat :=
  (logs.filter fun e =>
    match e with
    | ActionLog.opened _ n => n == name
    | _ => false).length

/-- The concatenated logs of two consecutive non-forced `NumatoFaucet.open`
calls on the same faucet. -/
def twoOpensLogs (f : Faucet) (comp : Computer) (now : ℚ) (w1 w2 : Bool) : List ActionLog :=
  let r1 := NumatoFaucet.openAct f false comp now w1
  let r2 := NumatoFaucet.openAct r1.faucet false comp now w2
  r1.logs ++ r2.logs

/-! ## Arduino flow counter (`icomputer/counter_arduino.py`) -/

/-- `MIN_FLOW_INTERVAL` (seconds). -/
def MIN_FLOW_INTERVAL : Nat := 45

/-- The mutable state of a `CounterArduino`.  `last_water_time` is in
whole seconds since the epoch; counts and flow are rationals (liters after
division by `counts_per_liter`). -/
structure CounterArduino where
  counts_per_liter : ℚ
  count : ℚ
  last_water_read : ℚ
  last_water_time : Nat
  flow : ℚ
deriving DecidableEq

/-- Embeds `CounterArduino.get_count` at time `now` (seconds).  `raw` is
the outcome of the serial exchange: `none` collapses the three failure
paths (no serial port, read timeout, non-integer reply), each of which
returns the last known `count` unchanged; `some k` is a parsed reply.
On success the count is converted to liters, and the flow is refreshed
only when the **seconds component** of the elapsed `timedelta` (the source
reads `.seconds`, not `.total_seconds()`, so whole days are discarded:
`(now - last_water_time) % 86400`) exceeds `MIN_FLOW_INTERVAL`; a
first-ever reading (`last_water_read == -1`) first seeds
`last_water_read` so the reported flow is `0`. -/
def CounterArduino.get_count (c : CounterArduino) (raw : Option Int) (now : Nat) :
    CounterArduino × ℚ :=
  match raw with
  | none => (c, c.count)
  | some k =>
    let count : ℚ := (k : ℚ) / c.counts_per_liter
    let c1 : CounterArduino := { c with count := count }
    let time_delta := (now - c1.last_water_time) % 86400
    if MIN_FLOW_INTERVAL < time_delta then
      let c2 : CounterArduino :=
        if c1.last_water_read = -1 then { c1 with last_water_read := count } else c1
      let c3 : CounterArduino :=
        { c2 with flow := (count - c2.last_water_read) * 60 / (time_delta : ℚ),
                  last_water_time := now, last_water_read := count }
      (c3, count)
    else (c1, count)

/-! ## Leak detection (`IComputer.main_loop`, leak-check block) -/

/-- `leak_check_interval` (seconds between leak checks). -/
def leak_check_interval : Nat := 5 * 60

/-- `leak_check_nunber_tests` (sic): reads needed to call a leak. -/
def leak_check_nunber_tests : Nat := 4

/-- Does the leak-check block run at tick `ticks`? -/
def leakCheckRuns (ticks : Nat) : Bool :=
  ticks % leak_check_interval = 0

/-- The `num_leak` loop: count successive strictly positive deltas from
the front of the read buffer, stopping at the first delta `≤ 0`. -/
def numLeakCount : List ℚ → Nat
  | a :: b :: rest => if b - a ≤ 0 then 0 else numLeakCount (b :: rest) + 1
  | _ => 0

/-- The read-buffer update of the leak-check block: append the current
count and drop the oldest entry beyond `leak_check_nunber_tests`.  The
per-counter step `leakCheckStep` below returns `none` when the counter is
skipped (not in `monitor_leaks` mode and some faucet on the counter is
desired-open, `hasDesiredOpen`); otherwise the new buffer together with
whether a `leak detected` notification is emitted
(`num_leak >= leak_check_nunber_tests - 1`). -/
def newBuf (buf : List ℚ) (count : ℚ) : List ℚ :=
  if (buf ++ [count]).length > leak_check_nunber_tests then (buf ++ [count]).tail
  else buf ++ [count]

/-- One leak-check step for one counter (see `newBuf` for the buffer
update). -/
def leakCheckStep (monitor_leaks hasDesiredOpen : Bool) (buf : List ℚ) (count : ℚ) :
    Option (List ℚ × Bool) :=
  if !monitor_leaks && hasDesiredOpen then none
  else some (newBuf buf count,
    decide (leak_check_nunber_tests - 1 ≤ numLeakCount (newBuf buf count)))

/-! ## Claim theorems -/

/-- The state-override line `set_percent<TAB>50%`. -/
def setPercentLine : List Char := "set_percent\t50%".toList

/-- The state-override line `monitor_leaks<TAB>True`. -/
def monitorLeaksTrueLine : List Char := "monitor_leaks\tTrue".toList

/-- The state-override line `monitor_leaks<TAB>False`. -/
def monitorLeaksFalseLine : List Char := "monitor_leaks\tFalse".toList

/-- A weekly timer: Tuesday (sane day 3) at 06:00 for 60 minutes. -/
def tmrTue : WeeklyTimer := mkWeeklyTimer 60 "roses" 3 6 0

/-- Claim C1: after `set_percent 50%` the state override is applied as
`duration_correction = 50/100`, but the timer open window evaluated by the
tick loop is **not** scaled: `WeeklyTimer.should_be_open` (whose source
signature takes no correction argument, although `main_loop` calls it with
one) still reports the Tuesday 06:00/60-min timer open at Tuesday 06:45
(minute 3285), 45 minutes in, even though the scaled duration is
`60 * 50/100 = 30` minutes.  This exhibits the code bug behind claim C1:
the `N/100` scaling never reaches the open-window evaluation. -/
theorem c1_set_percent_not_applied_to_timers :
    (applyStateLine initIState setPercentLine).duration_correction = 50 / 100 ∧
    tmrTue.should_be_open 3285 = true ∧
    ¬ ((45 : ℚ) < 60 * (applyStateLine initIState setPercentLine).duration_correction) := by
  refine ⟨rfl, by decide, ?_⟩
  norm_num [show (applyStateLine initIState setPercentLine).duration_correction = 50 / 100 from rfl]

/-- A weekly timer: Saturday (sane day 7) at 23:30 for 60 minutes. -/
def tmrSat : WeeklyTimer := mkWeeklyTimer 60 "lawn" 7 23 30

/-- Claim C2: for the Saturday 23:30 / 60-minute weekly timer the
`overnight` flag is true and `should_be_open` is true at Saturday 23:45
(minute 10065).  But at Sunday 00:15 (minute 10095) — where the claim
expects `true` — the code returns `false`, because the overnight branch
anchors the window at `next_weekday(now, start_day)`, which from a Sunday
is the *following* Saturday; the window never matches after midnight.  At
Sunday 00:45 (minute 10125) it is false as claimed. -/
theorem c2_overnight_timer_closes_at_midnight :
    tmrSat.overnight = true ∧
    tmrSat.should_be_open 10065 = true ∧
    tmrSat.should_be_open 10095 = false ∧
    tmrSat.should_be_open 10125 = false := by
  decide

/-- Claim C4: reading the state-override line `monitor_leaks<TAB>True`
leaves `monitor_leaks = False` — the code lowercases the parameter to
`true` and then compares it against the literal `'True'`, so the flag can
never be switched on; `monitor_leaks<TAB>False` yields `False` as claimed.
This exhibits the code bug behind claim C4. -/
theorem c4_monitor_leaks_true_sets_false :
    (applyStateLine initIState monitorLeaksTrueLine).monitor_leaks = false ∧
    (applyStateLine initIState monitorLeaksFalseLine).monitor_leaks = false ∧
    pyLower ("True".toList) = "true".toList := by
  decide

/-- Claim C5 (counterexample): `time_in_range(6, 0, 10)` at minute 370 —
which is exactly `start + duration` (06:10 with start 06:00, duration 10)
— returns `true`, contradicting the claim that the window is half-open
and excludes `start + duration`. -/
theorem c5_time_in_range_closed_upper_cex :
    time_in_range 6 0 10 370 = true ∧ 370 = dateStart 370 + 6 * 60 + 0 + 10 := by
  decide

/-- Claim C5 (amended): for every start hour `h ≤ 23`, minute `m ≤ 59`,
duration `d` and test time `t`, `time_in_range h m d t` is true iff `t`
lies in the **closed** interval `[start, start + d]` where `start` is
`t`'s date at `(h, m)`; in particular it returns `true` (not `false`)
when `t` equals `start + d` exactly. -/
theorem c5_time_in_range_closed_interval (h m d t : Nat) (hh : h ≤ 23) (hm : m ≤ 59) :
    time_in_range h m d t = true ↔
      dateStart t + h * 60 + m ≤ t ∧ t ≤ dateStart t + h * 60 + m + d := by
  simp only [time_in_range]
  split_ifs with h1 h2 <;> simp <;> omega

/-- Concrete instance of the amended claim C5: minute 365 (06:05) lies in
the Tuesday-agnostic window 06:00 + 10 min. -/
theorem c5_time_in_range_closed_interval_witness :
    time_in_range 6 0 10 365 = true :=
  (c5_time_in_range_closed_interval 6 0 10 365 (by decide) (by decide)).mpr (by decide)

/-- Helper for claim C6: with at most 4 reads in the buffer, the
`num_leak` loop reaches 3 iff the buffer holds exactly 4 reads in strictly
increasing order. -/
theorem numLeak_ge_three_iff (xs : List ℚ) (hlen : xs.length ≤ 4) :
    3 ≤ numLeakCount xs ↔ xs.length = 4 ∧ xs.Chain' (fun a b => a < b) := by
  rcases xs with _ | ⟨a, _ | ⟨b, _ | ⟨c, _ | ⟨d, _ | ⟨e, tl⟩⟩⟩⟩⟩
  · simp [numLeakCount]
  · simp [numLeakCount]
  · simp only [numLeakCount]
    split_ifs <;> simp
  · simp only [numLeakCount]
    split_ifs <;> simp
  · simp only [numLeakCount, List.chain'_cons, List.chain'_singleton]
    split_ifs with h1 h2 h3
    · constructor
      · intro h; omega
      · rintro ⟨-, hab, -, -⟩
        have := sub_nonpos.mp h1
        linarith
    · constructor
      · intro h; omega
      · rintro ⟨-, -, hbc, -⟩
        have := sub_nonpos.mp h2
        linarith
    · constructor
      · intro h; omega
      · rintro ⟨-, -, -, hcd⟩
        have := sub_nonpos.mp h3
        linarith
    · constructor
      · intro h
        exact ⟨by simp, sub_pos.mp (not_le.mp h1), sub_pos.mp (not_le.mp h2),
          sub_pos.mp (not_le.mp h3), trivial⟩
      · intro h
        omega
  · simp at hlen

/-- Claim C6: the leak-check block runs every `leak_check_interval = 300`
ticks; a counter is skipped iff `monitor_leaks` is false and the counter
has desired-open faucets; otherwise the current count is appended to a
buffer bounded at length 4 and a `leak detected` notification is emitted
iff the buffer then holds four reads whose three successive deltas are all
strictly positive. -/
theorem c6_leak_check_spec (ml ho : Bool) (buf : List ℚ) (c : ℚ) (hlen : buf.length ≤ 4) :
    leak_check_interval = 300 ∧
    (leakCheckStep ml ho buf c = none ↔ ml = false ∧ ho = true) ∧
    ∀ buf2 emit, leakCheckStep ml ho buf c = some (buf2, emit) →
      buf2.length ≤ 4 ∧
      (emit = true ↔ buf2.length = 4 ∧ buf2.Chain' (fun a b => a < b)) := by
  refine ⟨rfl, ?_, ?_⟩
  · cases ml <;> cases ho <;> simp [leakCheckStep]
  · intro buf2 emit hstep
    have hskip : (!ml && ho) = false := by
      by_contra hcon
      simp only [Bool.not_eq_false] at hcon
      simp [leakCheckStep, hcon] at hstep
    rw [leakCheckStep, if_neg (by simp [hskip])] at hstep
    injection hstep with hpair
    injection hpair with hb he
    subst hb
    subst he
    have hlen2 : (newBuf buf c).length ≤ 4 := by
      simp only [newBuf]
      split_ifs with hgt
      · simp only [List.length_tail, List.length_append, List.length_singleton]
        omega
      · simp only [List.length_append, List.length_singleton, leak_check_nunber_tests,
          gt_iff_lt, not_lt] at hgt ⊢
        omega
    refine ⟨hlen2, ?_⟩
    simp only [decide_eq_true_eq, leak_check_nunber_tests]
    exact numLeak_ge_three_iff _ hlen2

/-- A three-read buffer for the leak-check witness. -/
def bufW : List ℚ := [1, 2, 3]

/-- Four strictly increasing reads. -/
def bufW4 : List ℚ := [1, 2, 3, 4]

/-- Concrete instance of claim C6: appending the read `4` to the buffer
`[1, 2, 3]` (no skip: `monitor_leaks` true) yields the strictly increasing
4-read buffer and the leak notification fires. -/
theorem c6_leak_check_spec_witness :
    bufW4.length = 4 ∧ List.Chain' (fun a b : ℚ => a < b) bufW4 := by
  have heq : leakCheckStep true false bufW (4 : ℚ) = some (bufW4, true) := by
    norm_num [leakCheckStep, newBuf, bufW, bufW4, numLeakCount, leak_check_nunber_tests]
  exact ((c6_leak_check_spec true false bufW 4 (by simp [bufW])).2.2 bufW4 true heq).2.mp rfl

/-- Claim C7: a non-forced `open` on an already-open faucet is a no-op
returning `False` (state, including `open_time`, `start_water` and
`flow_counts`, untouched; no log line), for the base `Faucet.open` and for
`NumatoFaucet.open` alike; consequently two consecutive non-forced opens
of a closed, non-read-only faucet (with the first relay write succeeding)
produce exactly one `opened faucet` action-log entry. -/
theorem c7_open_idempotent (f : Faucet) (comp : Computer) (now : ℚ) (w1 w2 : Bool) :
    (f.isopen = true →
      Faucet.openAct f false comp now = ⟨f, [], false⟩ ∧
      NumatoFaucet.openAct f false comp now w1 = ⟨f, [], false⟩) ∧
    (f.isopen = false → f.read_only = false → w1 = true →
      openedCount (twoOpensLogs f comp now w1 w2) f.name = 1) := by
  constructor
  · intro hop
    refine ⟨by simp [Faucet.openAct, hop], ?_⟩
    cases hro : f.read_only <;> simp [NumatoFaucet.openAct, hop, hro]
  · intro hop hro hw
    subst hw
    simp [twoOpensLogs, NumatoFaucet.openAct, Faucet.openAct, hro, hop, openedCount]

/-- A closed local faucet with no counter, used for concrete checks. -/
def compLocal : Computer :=
  { computer_name := "local", monitor_leaks := false, counters := [] }

/-- A closed, non-read-only faucet local to `compLocal`. -/
def fClosed : Faucet :=
  { name := "roses", computer_name := "local", read_only := false, counter := "none",
    normal_flow := -1, isopen := false, open_time := 0, start_water := -1,
    flow_counts := [], all_alone := false, all_alone_all_time := true }

/-- The same faucet, currently open. -/
def fOpen : Faucet := { fClosed with isopen := true }

/-- Concrete instance of claim C7: the no-op on the open faucet and the
single `opened` entry for two consecutive opens of the closed faucet. -/
theorem c7_open_idempotent_witness :
    Faucet.openAct fOpen false compLocal 0 = ⟨fOpen, [], false⟩ ∧
    openedCount (twoOpensLogs fClosed compLocal 0 true true) "roses" = 1 := by
  have h1 := (c7_open_idempotent fOpen compLocal 0 true true).1 rfl
  have h2 := (c7_open_idempotent fClosed compLocal 0 true true).2 rfl rfl rfl
  exact ⟨h1.1, h2⟩

/-- Claim C3 (counterexample): for a closed local non-read-only Numato
faucet, `open(force=False)` with a failing relay write leaves
`is_open = False` — not `True` as the claim ("is_open stays true after a
failed open") states; symmetrically a failing close on the open faucet
leaves `is_open = True`, not `False`. -/
theorem c3_failed_write_reverts_isopen_cex :
    ((NumatoFaucet.openAct fClosed false compLocal 0 false).faucet.isopen = false ∧
     (NumatoFaucet.openAct fClosed false compLocal 0 false).ret = false) ∧
    ((NumatoFaucet.closeAct fOpen false compLocal 0 false).faucet.isopen = true ∧
     (NumatoFaucet.closeAct fOpen false compLocal 0 false).ret = false) := by
  decide

/-- Claim C3 (amended): for every local, non-read-only faucet, a failed
relay write during (forced) open reports failure (returns `False`) and
leaves `is_open` at the last known actual state `False` (reverted, not the
attempted `True`); a failed write during close returns `False` and leaves
`is_open = True`. -/
theorem c3_failed_write_reverts_isopen (f : Faucet) (comp : Computer) (now : ℚ)
    (hro : f.read_only = false) (hloc : f.is_local comp = true) :
    ((NumatoFaucet.openAct f true comp now false).faucet.isopen = false ∧
     (NumatoFaucet.openAct f true comp now false).ret = false) ∧
    ((NumatoFaucet.closeAct f true comp now false).faucet.isopen = true ∧
     (NumatoFaucet.closeAct f true comp now false).ret = false) := by
  simp only [Faucet.is_local, decide_eq_true_eq] at hloc
  constructor
  · cases hop : f.isopen <;>
      simp [NumatoFaucet.openAct, Faucet.openAct, Faucet.is_local, hro, hop, hloc]
  · cases hop : f.isopen <;>
      simp [NumatoFaucet.closeAct, Faucet.closeAct, Faucet.is_local, hro, hop, hloc]

/-- Concrete instance of the amended claim C3. -/
theorem c3_failed_write_reverts_isopen_witness :
    (NumatoFaucet.openAct fClosed true compLocal 5 false).faucet.isopen = false ∧
    (NumatoFaucet.closeAct fClosed true compLocal 5 false).faucet.isopen = true := by
  have h := c3_failed_write_reverts_isopen fClosed compLocal 5 rfl (by decide)
  exact ⟨h.1.1, h.2.1⟩

/-- A counter that last refreshed its flow at second 0, with 5 L on the
clock. -/
def cnt5 : CounterArduino :=
  { counts_per_liter := 1, count := 5, last_water_read := 5, last_water_time := 0, flow := -1 }

/-- Claim C9 (counterexample): reading `100` at second 86500 — one day
and 100 seconds after the previous flow refresh — sets
`flow = (100 - 5) * 60 / 100 = 57` (the source divides by the `.seconds`
component of the timedelta, i.e. the elapsed time modulo 86400), not
`(100 - 5) * 60 / 86500` as the claim's formula
`flow = Δcount × 60 / elapsed_seconds` requires. -/
theorem c9_flow_divisor_mod_day_cex :
    (cnt5.get_count (some 100) 86500).1.flow = 57 ∧
    ¬ ((57 : ℚ) = (100 - 5) * 60 / 86500) := by
  constructor
  · norm_num [CounterArduino.get_count, cnt5, MIN_FLOW_INTERVAL]
  · norm_num

/-- Claim C9 (amended): a successful read updates `flow`,
`last_water_read` and `last_water_time` only when the **seconds component
of the elapsed timedelta** — the elapsed seconds modulo 86400, since the
source reads `.seconds` rather than `.total_seconds()` — exceeds
`MIN_FLOW_INTERVAL` (45 s); an update implies more than 45 s really
elapsed, sets `flow = (count - last_water_read) * 60 / ((elapsed) % 86400)`
and refreshes `last_water_read`/`last_water_time`; a read inside the
window leaves all three unchanged (only `count` is refreshed); a
first-ever qualifying reading (`last_water_read = -1`) seeds
`last_water_read` and reports flow `0`; a failed read changes nothing. -/
theorem c9_flow_update_gate (c : CounterArduino) (k : Int) (now : Nat)
    (hmono : c.last_water_time ≤ now) :
    CounterArduino.get_count c none now = (c, c.count) ∧
    ((now - c.last_water_time) % 86400 ≤ MIN_FLOW_INTERVAL →
      (c.get_count (some k) now).1.flow = c.flow ∧
      (c.get_count (some k) now).1.last_water_read = c.last_water_read ∧
      (c.get_count (some k) now).1.last_water_time = c.last_water_time ∧
      (c.get_count (some k) now).1.count = (k : ℚ) / c.counts_per_liter ∧
      (c.get_count (some k) now).2 = (k : ℚ) / c.counts_per_liter) ∧
    (MIN_FLOW_INTERVAL < (now - c.last_water_time) % 86400 →
      MIN_FLOW_INTERVAL < now - c.last_water_time ∧
      (c.get_count (some k) now).1.flow =
        ((k : ℚ) / c.counts_per_liter -
            (if c.last_water_read = -1 then (k : ℚ) / c.counts_per_liter
             else c.last_water_read)) * 60 /
          (((now - c.last_water_time) % 86400 : Nat) : ℚ) ∧
      (c.get_count (some k) now).1.last_water_time = now ∧
      (c.get_count (some k) now).1.last_water_read = (k : ℚ) / c.counts_per_liter ∧
      (c.last_water_read = -1 → (c.get_count (some k) now).1.flow = 0)) := by
  refine ⟨rfl, ?_, ?_⟩
  · intro hle
    have hcond : ¬ (MIN_FLOW_INTERVAL < (now - c.last_water_time) % 86400) := not_lt.mpr hle
    simp [CounterArduino.get_count, hcond]
  · intro hlt
    have hreal : MIN_FLOW_INTERVAL < now - c.last_water_time :=
      lt_of_lt_of_le hlt (Nat.mod_le _ _)
    refine ⟨hreal, ?_⟩
    by_cases hseed : c.last_water_read = -1
    · simp [CounterArduino.get_count, hlt, hseed]
    · simp [CounterArduino.get_count, hlt, hseed]

/-- A counter one qualifying read past its seed. -/
def cntW : CounterArduino :=
  { counts_per_liter := 1, count := 0, last_water_read := 0, last_water_time := 0, flow := -1 }

/-- Concrete instance of the amended claim C9: a read of 100 at second 50
(within the same day) refreshes `last_water_time` and really happened more
than 45 s after the previous refresh. -/
theorem c9_flow_update_gate_witness :
    MIN_FLOW_INTERVAL < 50 - cntW.last_water_time ∧
    (cntW.get_count (some 100) 50).1.last_water_time = 50 := by
  have h := (c9_flow_update_gate cntW 100 50 (by decide)).2.2 (by decide)
  exact ⟨h.1, h.2.2.1⟩

/-- The `lawn` faucet of the C8 scenario: counter `c1` on this node,
`normal_flow` 10, open since second 0, one flow sample of 20. -/
def fLawn : Faucet :=
  { name := "lawn", computer_name := "local", read_only := false, counter := "c1",
    normal_flow := 10, isopen := true, open_time := 0, start_water := 0,
    flow_counts := [20], all_alone := false, all_alone_all_time := true }

/-- The node holding counter `c1` for the C8 scenario. -/
def compLawn : Computer :=
  { computer_name := "local", monitor_leaks := false,
    counters := [{ name := "c1", computer_name := "local", count := 5 }] }

/-- Claim C8 (counterexample): faucet `lawn` (normal_flow 10, counter on
this node, `monitor_leaks` off, median flow 20 — far above
`normal_flow * 1.15 = 11.5`) closes after only 60 s and **no** high-flow
notification is sent: the source guards the whole anomaly block by an
open duration of more than 120 s, a condition the claim omits. -/
theorem c8_flow_check_needs_120s_cex :
    (fLawn.closeAct true false compLawn 60).emails = [] ∧
    fLawn.normal_flow * (23 / 20) < fLawn.get_median_flow ∧
    ¬ ((120 : ℚ) < 60 - fLawn.open_time) := by
  have hmed : fLawn.get_median_flow = 20 := by
    have hc : ¬ ("c1" : String) = "none" := by decide
    norm_num [Faucet.get_median_flow, fLawn, hc, npMedian, sortRat, insertSorted]
  refine ⟨?_, by rw [hmed]; norm_num [fLawn], by norm_num [fLawn]⟩
  have h1 : (fLawn.closeAct true false compLawn 60).emails = closeEmails fLawn compLawn 60 := by
    simp [Faucet.closeAct, show fLawn.isopen = true from rfl]
  rw [h1, closeEmails,
    show fLawn.get_faucet_counter compLawn =
      some { name := "c1", computer_name := "local", count := 5 } from rfl]
  norm_num [fLawn, compLawn]

/-- Claim C8 (amended): on closing a faucet whose counter is on the local
node, with `monitor_leaks` false, **the faucet open for more than 120
seconds**, `normal_flow > 0` and `median_flow > -1`, a high-flow
notification is sent iff `median_flow > normal_flow * 1.15` or
`median_flow > normal_flow + 4`, and a low-flow notification iff
`median_flow < normal_flow * 0.8` or `median_flow < normal_flow - 4`;
faucets with `normal_flow ≤ 0` never trigger a flow check (on any close,
with any flags). -/
theorem c8_flow_check_iff (f : Faucet) (comp : Computer) (now : ℚ) :
    (∀ cv : CounterView, f.isopen = true → f.get_faucet_counter comp = some cv →
      cv.computer_name = comp.computer_name → comp.monitor_leaks = false →
      120 < now - f.open_time → f.normal_flow > 0 → f.get_median_flow > -1 →
      ((Email.highFlow f.name ∈ (f.closeAct true false comp now).emails ↔
          (f.get_median_flow > f.normal_flow * (23 / 20) ∨
           f.get_median_flow > f.normal_flow + 4)) ∧
       (Email.lowFlow f.name ∈ (f.closeAct true false comp now).emails ↔
          (f.get_median_flow < f.normal_flow * (4 / 5) ∨
           f.get_median_flow < f.normal_flow - 4)))) ∧
    (f.normal_flow ≤ 0 → ∀ ws force : Bool,
      Email.highFlow f.name ∉ (f.closeAct ws force comp now).emails ∧
      Email.lowFlow f.name ∉ (f.closeAct ws force comp now).emails) := by
  constructor
  · intro cv hop hfc hcn hml hdur hnf hmed
    have hemails : (f.closeAct true false comp now).emails = closeEmails f comp now := by
      simp [Faucet.closeAct, hop]
    rw [hemails, closeEmails, hfc]
    simp only [hcn, if_pos rfl, hml, Bool.not_false, if_pos trivial, if_pos hdur,
      if_pos (And.intro hnf hmed)]
    constructor <;> split_ifs <;> simp_all
  · intro hnf ws force
    have hguard : ¬ (f.normal_flow > 0 ∧ f.get_median_flow > -1) := fun hpos =>
      absurd hpos.1 (not_lt.mpr hnf)
    have hclosed : Email.highFlow f.name ∉ closeEmails f comp now ∧
        Email.lowFlow f.name ∉ closeEmails f comp now := by
      rw [closeEmails]
      cases hfc : f.get_faucet_counter comp with
      | none => simp
      | some cv => split_ifs <;> simp_all
    have hemails : (f.closeAct ws force comp now).emails = [] ∨
        (f.closeAct ws force comp now).emails = closeEmails f comp now := by
      rw [Faucet.closeAct]
      split_ifs <;> simp
    rcases hemails with he | he <;> rw [he] <;> simp [hclosed.1, hclosed.2]

/-- Concrete instance of the amended claim C8: closing `lawn` at second
200 (open 200 s > 120 s) with median flow 20 > 10 × 1.15 does send the
high-flow notification. -/
theorem c8_flow_check_iff_witness :
    Email.highFlow "lawn" ∈ (fLawn.closeAct true false compLawn 200).emails := by
  have hmed : fLawn.get_median_flow = 20 := by
    have hc : ¬ ("c1" : String) = "none" := by decide
    norm_num [Faucet.get_median_flow, fLawn, hc, npMedian, sortRat, insertSorted]
  have h := ((c8_flow_check_iff fLawn compLawn 200).1
    { name := "c1", computer_name := "local", count := 5 }
    rfl rfl rfl rfl
    (by norm_num [fLawn]) (by norm_num [fLawn]) (by rw [hmed]; norm_num)).1
  have hm : Email.highFlow fLawn.name ∈ (fLawn.closeAct true false compLawn 200).emails :=
    h.mpr (Or.inl (by rw [hmed]; norm_num [fLawn]))
  simpa [fLawn] using hm

/-- An already-closed faucet still holding a stale flow sample. -/
def fStale : Faucet := { fClosed with flow_counts := [3] }

/-- Claim C10 (counterexample): on the already-closed Numato faucet
`fStale`, `close(force=True)` writes **no** `closed faucet ...` action-log
line and does **not** clear `flow_samples` — `NumatoFaucet.close` calls
`super().close()` without forwarding `force`, so the base close no-ops on
a closed faucet. -/
theorem c10_numato_forced_close_no_log_cex :
    (NumatoFaucet.closeAct fStale true compLocal 0 true).logs = [] ∧
    (NumatoFaucet.closeAct fStale true compLocal 0 true).faucet.flow_counts = [3] := by
  decide

/-- Helper for claim C10: a forced Numato close (successful write,
non-read-only faucet) contributes a `closed` log line exactly when the
faucet was open. -/
theorem numatoClose_forced_closedNames (f : Faucet) (comp : Computer) (now : ℚ)
    (hro : f.read_only = false) :
    closedNames (NumatoFaucet.closeAct f true comp now true).logs =
      if f.isopen then [f.name] else [] := by
  by_cases hl : f.computer_name = comp.computer_name <;>
    cases hop : f.isopen <;>
      simp [NumatoFaucet.closeAct, Faucet.closeAct, hro, hop, hl, closedNames,
        Faucet.is_local]

/-- Claim C10 (amended): the **base** `Faucet.close(force=True)` on an
already-closed faucet does append exactly one `closed faucet ... water ...
median flow ...` line and clears `flow_samples`; but `NumatoFaucet.close`
does not forward `force` to the base close (`super().close()`), so a
forced close of an already-closed non-read-only Numato faucet writes no
line, and `close_all` — hence every faucets/pumps/timers reload — emits a
`closed` line exactly for the faucets that were open, not for every
faucet. -/
theorem c10_forced_close_logging (f : Faucet) (comp : Computer) (now : ℚ) (fs : List Faucet) :
    (f.isopen = false →
      closedNames (f.closeAct true true comp now).logs = [f.name] ∧
      (f.closeAct true true comp now).faucet.flow_counts = [] ∧
      (f.read_only = false → (NumatoFaucet.closeAct f true comp now true).logs = [])) ∧
    ((∀ g ∈ fs, g.read_only = false) →
      closedNames (closeAllLogs fs comp now) =
        ((fs.filter fun g => g.isopen).map fun g => g.name)) := by
  constructor
  · intro hop
    refine ⟨by simp [Faucet.closeAct, closedNames], by simp [Faucet.closeAct], ?_⟩
    intro hro
    by_cases hl : f.computer_name = comp.computer_name <;>
      simp [NumatoFaucet.closeAct, Faucet.closeAct, hro, hop, hl, Faucet.is_local]
  · induction fs with
    | nil => intro _; simp [closeAllLogs, closedNames]
    | cons g gs ih =>
      intro hall
      have hg : g.read_only = false := hall g (by simp)
      have hgs : ∀ x ∈ gs, x.read_only = false := fun x hx => hall x (by simp [hx])
      have hone := numatoClose_forced_closedNames g comp now hg
      have htail := ih hgs
      simp only [closeAllLogs, List.map_cons, List.flatten_cons] at htail ⊢
      simp only [closedNames] at hone htail ⊢
      rw [List.filterMap_append, hone, htail]
      cases hgo : g.isopen <;> simp [List.filter_cons, hgo]

/-- A second faucet, open, on the same node. -/
def fTulips : Faucet := { fClosed with name := "tulips", isopen := true }

/-- A small inventory: one closed and one open faucet. -/
def fsW : List Faucet := [fClosed, fTulips]

/-- Concrete instance of the amended claim C10: the base forced close of
the closed `roses` faucet logs one line, and `close_all` over
`[roses (closed), tulips (open)]` logs a `closed` line only for
`tulips`. -/
theorem c10_forced_close_logging_witness :
    closedNames ((fClosed.closeAct true true compLocal 0).logs) = ["roses"] ∧
    closedNames (closeAllLogs fsW compLocal 0) = ["tulips"] := by
  have h1 := (c10_forced_close_logging fClosed compLocal 0 fsW).1 rfl
  have h2 := (c10_forced_close_logging fClosed compLocal 0 fsW).2
    (by intro g hg; simp only [fsW, List.mem_cons, List.mem_singleton] at hg
        rcases hg with rfl | rfl | h
        · rfl
        · rfl
        · simp at h)
  constructor
  · have := h1.1
    simpa [fClosed] using this
  · rw [h2]; decide

end Irrigator
